import Mathlib

/-
Verification of the converter package of cluster-api-provider-azure
(src/azure/converters/vmss.go and src/azure/converters/subnets.go).

Go strings are modelled as Lean `String`. Nil-able Go pointer fields
(`*string`, `*T`) are modelled as `Option`. Go code that can panic
(out-of-range slice indexing) is modelled with an `Option` result, where
`none` is the panic. The Go standard-library helpers used by the source
(`strings.Split` with the one-character separator "/", `strings.HasPrefix`
with "/", `strings.EqualFold` on ASCII keywords, `to.String`) are given
executable models below; `goEqualFold` folds with `Char.toLower`, which
agrees with Go simple case folding on the ASCII keywords this code
compares against.
-/

/-- Model of `strings.Split (v, sep)` for a one-character separator `sep`:
split `v` around each occurrence of `sep`, keeping empty fragments, so that
`n` separators always yield `n + 1` fragments. -/
def splitCharAux (sep : Char) : List Char → List Char → List (List Char)
  | [], cur => [cur.reverse]
  | c :: rest, cur =>
    if c = sep then cur.reverse :: splitCharAux sep rest []
    else splitCharAux sep rest (c :: cur)

/-- `strings.Split (v, sep)` for a one-character separator. -/
def goSplit (v : String) (sep : Char) : List String :=
  (splitCharAux sep v.toList []).map String.mk

/-- `strings.HasPrefix (v, c)` for a one-character pattern `c`. -/
def goStartsWithChar (v : String) (c : Char) : Bool :=
  match v.toList with
  | [] => false
  | x :: _ => x = c

/-- `strings.EqualFold (a, b)`, restricted to ASCII case folding (exact for
every keyword this package compares against). -/
def goEqualFold (a b : String) : Bool :=
  a.toList.map Char.toLower == b.toList.map Char.toLower

/-- `to.String (s *string) string`: dereference, with `""` for nil. -/
def toStr : Option String → String
  | some v => v
  | none => ""

/-- `splitStringAndOmitEmpty` from vmss.go: split and keep only the
non-empty fragments, in order (the separator is always "/" at the one call
site, modelled as the character). -/
def splitStringAndOmitEmpty (v : String) (sep : Char) : List String :=
  (goSplit v sep).foldl (fun r s => if s.length = 0 then r else r ++ [s]) []

/-- `ParseImageID` from vmss.go: validate a compute-gallery image resource
ID and return its non-empty `/`-separated segments. The error value models
the `fmt.Errorf` message. Indexing `parts [i]` in the source is guarded by
the length check, modelled with `List.getD`. -/
def ParseImageID (id : String) : Except String (List String) :=
  if id.length = 0 then
    Except.error "invalid resource ID: id cannot be empty"
  else if !(goStartsWithChar id '/') then
    Except.error ("invalid resource ID: resource id '" ++ id ++ "' must start with '/'")
  else
    let parts := splitStringAndOmitEmpty id '/'
    if parts.length < 12 then
      Except.error ("invalid resource ID: " ++ id)
    else if !(goEqualFold (parts.getD 5 "") "Microsoft.Compute") ||
        !(goEqualFold (parts.getD 6 "") "galleries") then
      Except.error ("invalid image id type we only accept Microsoft.Compute/galleries " ++ id)
    else if !(goEqualFold (parts.getD 0 "") "subscriptions") || parts.getD 1 "" == "" then
      Except.error ("invalid image ID subscription keyword or subscription is empty: " ++ id)
    else if !(goEqualFold (parts.getD 2 "") "resourcegroups") || parts.getD 3 "" == "" then
      Except.error ("invalid image ID rg keyword missing or rg is empty: " ++ id)
    else if !(goEqualFold (parts.getD 4 "") "providers") then
      Except.error ("invalid image ID providers keyword missing: " ++ id)
    else if !(goEqualFold (parts.getD 10 "") "versions") || parts.getD 11 "" == "" then
      Except.error ("invalid image ID versions keyword missing or version is empty " ++ id)
    else
      Except.ok parts

/-- The specification's description of the parser's successful result: the
input's non-empty `/`-separated segments, in input order. -/
def nonEmptySegments (id : String) : List String :=
  (goSplit id '/').filter (fun s => s != "")

deriving instance DecidableEq for Except

/-- The acceptance conditions of the resource-ID grammar that `ParseImageID`
actually checks: leading slash, at least 12 non-empty segments, and the six
literal keywords at their fixed positions, case-insensitively. -/
def acceptShape (id : String) : Prop :=
  goStartsWithChar id '/' = true ∧
  12 ≤ (nonEmptySegments id).length ∧
  goEqualFold ((nonEmptySegments id).getD 0 "") "subscriptions" = true ∧
  goEqualFold ((nonEmptySegments id).getD 2 "") "resourceGroups" = true ∧
  goEqualFold ((nonEmptySegments id).getD 4 "") "providers" = true ∧
  goEqualFold ((nonEmptySegments id).getD 5 "") "Microsoft.Compute" = true ∧
  goEqualFold ((nonEmptySegments id).getD 6 "") "galleries" = true ∧
  goEqualFold ((nonEmptySegments id).getD 10 "") "versions" = true

instance (id : String) : Decidable (acceptShape id) := by
  unfold acceptShape
  infer_instance

/-- Substring containment, the sense in which an error message "contains"
a phrase. -/
def goContains (s sub : String) : Prop :=
  ∃ pre post, s = pre ++ sub ++ post

/-- The error conditions of the resource-ID parser as the specification
words them (modelled from the spec, for comparison with `ParseImageID`):
empty input; no leading slash; fewer than 12 non-empty segments; a missing
keyword at a fixed position, case-insensitively; or an empty subscription,
resource-group or version value. -/
def specErrorConditions (id : String) : Prop :=
  id = "" ∨
  goStartsWithChar id '/' = false ∨
  (nonEmptySegments id).length < 12 ∨
  goEqualFold ((nonEmptySegments id).getD 5 "") "Microsoft.Compute" = false ∨
  goEqualFold ((nonEmptySegments id).getD 6 "") "galleries" = false ∨
  goEqualFold ((nonEmptySegments id).getD 0 "") "subscriptions" = false ∨
  (nonEmptySegments id).getD 1 "" = "" ∨
  goEqualFold ((nonEmptySegments id).getD 2 "") "resourceGroups" = false ∨
  (nonEmptySegments id).getD 3 "" = "" ∨
  goEqualFold ((nonEmptySegments id).getD 4 "") "providers" = false ∨
  goEqualFold ((nonEmptySegments id).getD 10 "") "versions" = false ∨
  (nonEmptySegments id).getD 11 "" = ""

/-- `compute.ImageReference` from the Azure SDK: the fields the converter
reads (all nil-able `*string` in Go). -/
structure ImageReference where
  ID : Option String
  Publisher : Option String
  Offer : Option String
  Sku : Option String
  Version : Option String
deriving DecidableEq

/-- `infrav1.ImagePlan`. -/
structure ImagePlan where
  Publisher : String
  Offer : String
  SKU : String
deriving DecidableEq

/-- `infrav1.AzureMarketplaceImage`. -/
structure AzureMarketplaceImage where
  ImagePlan : ImagePlan
  Version : String
  ThirdPartyImage : Bool
deriving DecidableEq

/-- `infrav1.AzureComputeGalleryImage`: the five fields this converter
writes (two nil-able `*string`, three plain strings in Go). -/
structure AzureComputeGalleryImage where
  SubscriptionID : Option String
  ResourceGroup : Option String
  Gallery : String
  Name : String
  Version : String
deriving DecidableEq

/-- `infrav1.AzureSharedGalleryImage`: the converter only ever builds its
zero value and never reads or writes a field, so its fields are not
modelled. -/
structure AzureSharedGalleryImage where
deriving DecidableEq

/-- `infrav1.Image`: pointer-valued variant sub-fields. -/
structure Image where
  ID : Option String
  SharedGallery : Option AzureSharedGalleryImage
  Marketplace : Option AzureMarketplaceImage
  ComputeGallery : Option AzureComputeGalleryImage
deriving DecidableEq

/-- The Go zero value of `AzureComputeGalleryImage`. -/
def zeroComputeGallery : AzureComputeGalleryImage :=
  ⟨none, none, "", "", ""⟩

/-- The Go zero value of `AzureMarketplaceImage`. -/
def zeroMarketplace : AzureMarketplaceImage :=
  ⟨⟨"", "", ""⟩, "", false⟩

/-- The Go zero value of `infrav1.Image`. -/
def zeroImage : Image :=
  ⟨none, none, none, none⟩

/-- One iteration of the keyword-scanning loop of `SDKImageToImage` at the
pair (parts [i], parts [i+1]): each of the five independent `if` statements
of the source, in order. -/
def updatePair (x y : String) (img : AzureComputeGalleryImage) :
    AzureComputeGalleryImage :=
  let img := if goEqualFold x "subscriptions" then { img with SubscriptionID := some y } else img
  let img := if goEqualFold x "resourcegroups" then { img with ResourceGroup := some y } else img
  let img := if goEqualFold x "galleries" then { img with Gallery := y } else img
  let img := if goEqualFold x "images" then { img with Name := y } else img
  if goEqualFold x "versions" then { img with Version := y } else img

/-- Whether the scanning loop would read `parts [i+1]` at this element. -/
def isScanKeyword (x : String) : Bool :=
  goEqualFold x "subscriptions" || goEqualFold x "resourcegroups" ||
  goEqualFold x "galleries" || goEqualFold x "images" || goEqualFold x "versions"

/-- The keyword-scanning loop of `SDKImageToImage` over the remaining
segment list. When the final element matches a keyword the Go code indexes
`parts [i + 1]` out of range and panics: that is the `none` result. -/
def scanParts : List String → AzureComputeGalleryImage →
    Option AzureComputeGalleryImage
  | [], img => some img
  | [x], img => if isScanKeyword x then none else some img
  | x :: y :: t, img => scanParts (y :: t) (updatePair x y img)

/-- The segment list the scanning loop of `SDKImageToImage` runs over:
`parts, err := ParseImageID (imgId)` with the error only logged, so on a
parse failure `parts` is the nil slice and the loop body never runs. -/
def galleryParts (imgId : String) : List String :=
  match ParseImageID imgId with
  | Except.ok p => p
  | Except.error _ => []

/-- `SDKImageToImage` from vmss.go. An empty image ID yields the
marketplace variant; a non-empty one is parsed (a parse error is only
logged: the scan then runs over the nil slice) and scanned for keywords.
`none` models the panic of the scanning loop. -/
def SDKImageToImage (sdkImageRef : ImageReference) (isThirdPartyImage : Bool) :
    Option Image :=
  let imgId := toStr sdkImageRef.ID
  if imgId = "" then
    some
      { ID := some imgId,
        SharedGallery := some ⟨⟩,
        Marketplace := some
          { ImagePlan :=
              { Publisher := toStr sdkImageRef.Publisher,
                Offer := toStr sdkImageRef.Offer,
                SKU := toStr sdkImageRef.Sku },
            Version := toStr sdkImageRef.Version,
            ThirdPartyImage := isThirdPartyImage },
        ComputeGallery := some zeroComputeGallery }
  else
    match scanParts (galleryParts imgId) zeroComputeGallery with
    | none => none
    | some computeImg =>
      some
        { ID := some imgId,
          SharedGallery := some ⟨⟩,
          Marketplace := some zeroMarketplace,
          ComputeGallery := some computeImg }

/-- The segment that follows the last case-insensitive occurrence of the
keyword `kw` in the list, when an occurrence with a following segment
exists: what the last-executed matching iteration of the scanning loop
writes into the corresponding field. -/
def lastFollow (kw : String) : List String → Option String
  | [] => none
  | [_] => none
  | x :: y :: t =>
    match lastFollow kw (y :: t) with
    | some v => some v
    | none => if goEqualFold x kw then some y else none

/-- Keep the found value, else the old optional field. -/
def orElseOpt (found : Option String) (old : Option String) : Option String :=
  match found with
  | some v => some v
  | none => old

/-- Keep the found value, else the old string field. -/
def orElseStr (found : Option String) (old : String) : String :=
  match found with
  | some v => v
  | none => old

/-- `compute.OSProfile`: the one field the converter reads. -/
structure OSProfile where
  ComputerName : Option String
deriving DecidableEq

/-- `compute.VirtualMachineScaleSetStorageProfile`: the one field the
converter reads. -/
structure StorageProfile where
  ImageReference : Option ImageReference
deriving DecidableEq

/-- `compute.VirtualMachineScaleSetVMProperties`: the fields the converter
reads from the embedded properties block. -/
structure VirtualMachineScaleSetVMProperties where
  ProvisioningState : Option String
  OsProfile : Option OSProfile
  StorageProfile : Option StorageProfile
deriving DecidableEq

/-- `compute.VirtualMachineScaleSetVM`: the fields `SDKToVMSSVM` reads.
`Properties` models the embedded `*VirtualMachineScaleSetVMProperties`
pointer; `PlanPresent` models all the converter reads of `Plan`
(`sdkInstance.Plan != nil`). -/
structure VirtualMachineScaleSetVM where
  ID : Option String
  InstanceID : Option String
  Properties : Option VirtualMachineScaleSetVMProperties
  PlanPresent : Bool
  Zones : Option (List String)
deriving DecidableEq

/-- `azure.VMSSVM`: the fields `SDKToVMSSVM` writes. `State` models the
string-typed `infrav1.ProvisioningState`; the sentinel `infrav1.Creating`
is the string "Creating". -/
structure VMSSVM where
  ID : String
  InstanceID : String
  Name : String
  AvailabilityZone : String
  State : String
  Image : Image
deriving DecidableEq

/-- `SDKToVMSSVM` from vmss.go. When the embedded properties block is nil
the function returns early with only `ID` and `InstanceID` copied (`State`
keeps its zero value ""). Otherwise the state defaults to "Creating" and is
overwritten by a present provisioning-state value, the computer name and
first availability zone are copied when present, and the image reference is
converted when the whole storage-profile chain is present (`none` result =
panic propagated from the image conversion). -/
def SDKToVMSSVM (sdkInstance : VirtualMachineScaleSetVM) : Option VMSSVM :=
  let inst : VMSSVM :=
    { ID := toStr sdkInstance.ID,
      InstanceID := toStr sdkInstance.InstanceID,
      Name := "",
      AvailabilityZone := "",
      State := "",
      Image := zeroImage }
  match sdkInstance.Properties with
  | none => some inst
  | some props =>
    let st :=
      match props.ProvisioningState with
      | some s => s
      | none => "Creating"
    let nm :=
      match props.OsProfile with
      | some op =>
        match op.ComputerName with
        | some n => n
        | none => ""
      | none => ""
    let az :=
      match sdkInstance.Zones with
      | some (z :: _) => z
      | _ => ""
    match props.StorageProfile with
    | some sp =>
      match sp.ImageReference with
      | some ir =>
        match SDKImageToImage ir sdkInstance.PlanPresent with
        | none => none
        | some im =>
          some { inst with State := st, Name := nm, AvailabilityZone := az, Image := im }
      | none => some { inst with State := st, Name := nm, AvailabilityZone := az }
    | none => some { inst with State := st, Name := nm, AvailabilityZone := az }

/-- `network.SubnetPropertiesFormat`: the two fields the extractor reads. -/
structure SubnetPropertiesFormat where
  AddressPrefix : Option String
  AddressPrefixes : Option (List String)
deriving DecidableEq

/-- `network.Subnet`: the embedded nil-able properties pointer. -/
structure Subnet where
  SubnetPropertiesFormat : Option SubnetPropertiesFormat
deriving DecidableEq

/-- `GetSubnetAddresses` from subnets.go: the single prefix wins, else the
prefix list, else nil. -/
def GetSubnetAddresses (subnet : Subnet) : List String :=
  match subnet with
  | ⟨some ⟨some p, _⟩⟩ => [p]
  | ⟨some ⟨none, some ps⟩⟩ => ps
  | _ => []

/-- The subnet's single address-prefix field: set exactly when the
properties block is present and its `AddressPrefix` is non-nil. -/
def subnetSingleAddress (s : Subnet) : Option String :=
  match s with
  | ⟨some ⟨p, _⟩⟩ => p
  | ⟨none⟩ => none

/-- The subnet's list-valued address-prefixes field: set exactly when the
properties block is present and its `AddressPrefixes` is non-nil. -/
def subnetAddressList (s : Subnet) : Option (List String) :=
  match s with
  | ⟨some ⟨_, ps⟩⟩ => ps
  | ⟨none⟩ => none

theorem string_length_eq_zero (x : String) (h : x.length = 0) : x = "" := by
  cases x with
  | mk data =>
    cases data with
    | nil => rfl
    | cons c cs => simp [String.length] at h

theorem foldlOmit_eq_filter (l : List String) (acc : List String) :
    l.foldl (fun r s => if s.length = 0 then r else r ++ [s]) acc =
      acc ++ l.filter (fun s => s != "") := by
  induction l generalizing acc with
  | nil => simp
  | cons x t ih =>
    rw [List.foldl_cons, List.filter_cons]
    by_cases hx : x = ""
    · subst hx
      simp [ih, show (("" : String) != "") = false from by decide,
        show ("" : String).length = 0 from by decide]
    · have hlen : ¬ x.length = 0 := fun h => hx (string_length_eq_zero x h)
      have hbne : (x != "") = true := by simpa [bne_iff_ne] using hx
      simp [hlen, hbne, ih]

theorem splitStringAndOmitEmpty_eq_filter (v : String) (sep : Char) :
    splitStringAndOmitEmpty v sep = (goSplit v sep).filter (fun s => s != "") := by
  unfold splitStringAndOmitEmpty
  simpa using foldlOmit_eq_filter (goSplit v sep) []

theorem splitStringAndOmitEmpty_eq_segments (v : String) :
    splitStringAndOmitEmpty v '/' = nonEmptySegments v :=
  splitStringAndOmitEmpty_eq_filter v '/'

/-- Every element produced by `splitStringAndOmitEmpty` is non-empty. -/
theorem mem_splitStringAndOmitEmpty_ne (v : String) (sep : Char) (s : String)
    (h : s ∈ splitStringAndOmitEmpty v sep) : s ≠ "" := by
  rw [splitStringAndOmitEmpty_eq_filter] at h
  have := List.of_mem_filter h
  simpa using this

/-- An in-range `getD` of the parser's segment list is a non-empty string. -/
theorem getD_splitStringAndOmitEmpty_ne (v : String) (sep : Char) (i : Nat)
    (h : i < (splitStringAndOmitEmpty v sep).length) :
    (splitStringAndOmitEmpty v sep).getD i "" ≠ "" := by
  apply mem_splitStringAndOmitEmpty_ne v sep
  rw [List.getD_eq_getElem _ _ h]
  exact List.getElem_mem h

/-- Case-insensitive comparison is unaffected by the casing of the literal:
"resourcegroups" (used by the code) and "resourceGroups" (used by the spec)
are the same keyword. -/
theorem goEqualFold_resourceGroups (x : String) :
    goEqualFold x "resourcegroups" = goEqualFold x "resourceGroups" := by
  unfold goEqualFold
  rw [show "resourcegroups".toList.map Char.toLower =
      "resourceGroups".toList.map Char.toLower from by decide]

/-- `ParseImageID` succeeds, returning exactly the non-empty segments, when
the input satisfies `acceptShape`, and returns an error otherwise. -/
theorem ParseImageID_cases (id : String) :
    (ParseImageID id = Except.ok (nonEmptySegments id) ∧ acceptShape id) ∨
    ((∃ e, ParseImageID id = Except.error e) ∧ ¬ acceptShape id) := by
  have hsplit := splitStringAndOmitEmpty_eq_segments id
  by_cases h0 : id.length = 0
  · right
    constructor
    · have h : ParseImageID id = Except.error "invalid resource ID: id cannot be empty" := by
        unfold ParseImageID
        rw [if_pos h0]
      exact ⟨_, h⟩
    · rintro ⟨hpre, -⟩
      rw [string_length_eq_zero id h0] at hpre
      exact absurd hpre (by decide)
  by_cases h1 : (!(goStartsWithChar id '/')) = true
  · right
    constructor
    · have h : ParseImageID id =
          Except.error ("invalid resource ID: resource id '" ++ id ++ "' must start with '/'") := by
        unfold ParseImageID
        rw [if_neg h0, if_pos h1]
      exact ⟨_, h⟩
    · rintro ⟨hpre, -⟩
      simp [hpre] at h1
  by_cases h2 : (splitStringAndOmitEmpty id '/').length < 12
  · right
    constructor
    · have h : ParseImageID id = Except.error ("invalid resource ID: " ++ id) := by
        unfold ParseImageID
        rw [if_neg h0, if_neg h1, if_pos h2]
      exact ⟨_, h⟩
    · rintro ⟨-, hlen, -⟩
      rw [hsplit] at h2
      omega
  have hlen12 : 12 ≤ (nonEmptySegments id).length := by
    rw [← hsplit]; omega
  have hne : ∀ i : Nat, i < 12 → (nonEmptySegments id).getD i "" ≠ "" := by
    intro i hi
    rw [← hsplit]
    exact getD_splitStringAndOmitEmpty_ne id '/' i (by rw [hsplit]; omega)
  by_cases h3 : (!(goEqualFold ((splitStringAndOmitEmpty id '/').getD 5 "") "Microsoft.Compute") ||
      !(goEqualFold ((splitStringAndOmitEmpty id '/').getD 6 "") "galleries")) = true
  · right
    constructor
    · have h : ParseImageID id =
          Except.error ("invalid image id type we only accept Microsoft.Compute/galleries " ++ id) := by
        unfold ParseImageID
        rw [if_neg h0, if_neg h1, if_neg h2, if_pos h3]
      exact ⟨_, h⟩
    · rintro ⟨-, -, -, -, -, hc, hg, -⟩
      rw [hsplit] at h3
      simp only [Bool.or_eq_true, Bool.not_eq_true'] at h3
      rcases h3 with ha | ha
      · rw [hc] at ha
        exact Bool.noConfusion ha
      · rw [hg] at ha
        exact Bool.noConfusion ha
  by_cases h4 : (!(goEqualFold ((splitStringAndOmitEmpty id '/').getD 0 "") "subscriptions") ||
      (splitStringAndOmitEmpty id '/').getD 1 "" == "") = true
  · right
    constructor
    · have h : ParseImageID id =
          Except.error ("invalid image ID subscription keyword or subscription is empty: " ++ id) := by
        unfold ParseImageID
        rw [if_neg h0, if_neg h1, if_neg h2, if_neg h3, if_pos h4]
      exact ⟨_, h⟩
    · rintro ⟨-, -, hsub, -⟩
      rw [hsplit] at h4
      simp only [Bool.or_eq_true, Bool.not_eq_true', beq_iff_eq] at h4
      rcases h4 with ha | ha
      · rw [hsub] at ha
        exact Bool.noConfusion ha
      · exact hne 1 (by omega) ha
  by_cases h5 : (!(goEqualFold ((splitStringAndOmitEmpty id '/').getD 2 "") "resourcegroups") ||
      (splitStringAndOmitEmpty id '/').getD 3 "" == "") = true
  · right
    constructor
    · have h : ParseImageID id =
          Except.error ("invalid image ID rg keyword missing or rg is empty: " ++ id) := by
        unfold ParseImageID
        rw [if_neg h0, if_neg h1, if_neg h2, if_neg h3, if_neg h4, if_pos h5]
      exact ⟨_, h⟩
    · rintro ⟨-, -, -, hrg, -⟩
      rw [hsplit, goEqualFold_resourceGroups] at h5
      simp only [Bool.or_eq_true, Bool.not_eq_true', beq_iff_eq] at h5
      rcases h5 with ha | ha
      · rw [hrg] at ha
        exact Bool.noConfusion ha
      · exact hne 3 (by omega) ha
  by_cases h6 : (!(goEqualFold ((splitStringAndOmitEmpty id '/').getD 4 "") "providers")) = true
  · right
    constructor
    · have h : ParseImageID id =
          Except.error ("invalid image ID providers keyword missing: " ++ id) := by
        unfold ParseImageID
        rw [if_neg h0, if_neg h1, if_neg h2, if_neg h3, if_neg h4, if_neg h5, if_pos h6]
      exact ⟨_, h⟩
    · rintro ⟨-, -, -, -, hpr, -⟩
      rw [hsplit] at h6
      simp only [Bool.not_eq_true'] at h6
      rw [hpr] at h6
      exact Bool.noConfusion h6
  by_cases h7 : (!(goEqualFold ((splitStringAndOmitEmpty id '/').getD 10 "") "versions") ||
      (splitStringAndOmitEmpty id '/').getD 11 "" == "") = true
  · right
    constructor
    · have h : ParseImageID id =
          Except.error ("invalid image ID versions keyword missing or version is empty " ++ id) := by
        unfold ParseImageID
        rw [if_neg h0, if_neg h1, if_neg h2, if_neg h3, if_neg h4, if_neg h5, if_neg h6, if_pos h7]
      exact ⟨_, h⟩
    · rintro ⟨-, -, -, -, -, -, -, hv⟩
      rw [hsplit] at h7
      simp only [Bool.or_eq_true, Bool.not_eq_true', beq_iff_eq] at h7
      rcases h7 with ha | ha
      · rw [hv] at ha
        exact Bool.noConfusion ha
      · exact hne 11 (by omega) ha
  left
  constructor
  · unfold ParseImageID
    rw [if_neg h0, if_neg h1, if_neg h2, if_neg h3, if_neg h4, if_neg h5, if_neg h6, if_neg h7,
      hsplit]
  · rw [hsplit] at h3 h4 h5 h6 h7
    simp only [Bool.or_eq_true, Bool.not_eq_true', not_or, Bool.not_eq_false] at h1 h3 h4 h5 h6 h7
    refine ⟨by simpa using h1, hlen12, h4.1, ?_, h6, h3.1, h3.2, h7.1⟩
    rw [← goEqualFold_resourceGroups]
    exact h5.1

/-- An in-range `getD` of the non-empty segment list is a non-empty string. -/
theorem getD_nonEmptySegments_ne (id : String) (i : Nat)
    (h : i < (nonEmptySegments id).length) :
    (nonEmptySegments id).getD i "" ≠ "" := by
  rw [← splitStringAndOmitEmpty_eq_segments]
  apply getD_splitStringAndOmitEmpty_ne
  rw [splitStringAndOmitEmpty_eq_segments]
  exact h

/-- The specification's error conditions are exactly the complement of the
acceptance conditions the code checks. -/
theorem specErrorConditions_iff_not_accept (id : String) :
    specErrorConditions id ↔ ¬ acceptShape id := by
  constructor
  · intro hcond hacc
    obtain ⟨a1, a2, a3, a4, a5, a6, a7, a8⟩ := hacc
    rcases hcond with h | h | h | h | h | h | h | h | h | h | h | h
    · subst h
      exact absurd a1 (by decide)
    · rw [a1] at h
      exact Bool.noConfusion h
    · omega
    · rw [a6] at h
      exact Bool.noConfusion h
    · rw [a7] at h
      exact Bool.noConfusion h
    · rw [a3] at h
      exact Bool.noConfusion h
    · exact getD_nonEmptySegments_ne id 1 (by omega) h
    · rw [a4] at h
      exact Bool.noConfusion h
    · exact getD_nonEmptySegments_ne id 3 (by omega) h
    · rw [a5] at h
      exact Bool.noConfusion h
    · rw [a8] at h
      exact Bool.noConfusion h
    · exact getD_nonEmptySegments_ne id 11 (by omega) h
  · intro hnacc
    unfold specErrorConditions
    by_cases c1 : goStartsWithChar id '/' = true
    on_goal 2 =>
      right
      left
      exact Bool.not_eq_true _ ▸ Bool.eq_false_iff.mpr c1
    by_cases c2 : 12 ≤ (nonEmptySegments id).length
    on_goal 2 =>
      right
      right
      left
      omega
    by_cases c3 : goEqualFold ((nonEmptySegments id).getD 0 "") "subscriptions" = true
    on_goal 2 =>
      iterate 5 right
      left
      exact Bool.eq_false_iff.mpr c3
    by_cases c4 : goEqualFold ((nonEmptySegments id).getD 2 "") "resourceGroups" = true
    on_goal 2 =>
      iterate 7 right
      left
      exact Bool.eq_false_iff.mpr c4
    by_cases c5 : goEqualFold ((nonEmptySegments id).getD 4 "") "providers" = true
    on_goal 2 =>
      iterate 9 right
      left
      exact Bool.eq_false_iff.mpr c5
    by_cases c6 : goEqualFold ((nonEmptySegments id).getD 5 "") "Microsoft.Compute" = true
    on_goal 2 =>
      iterate 3 right
      left
      exact Bool.eq_false_iff.mpr c6
    by_cases c7 : goEqualFold ((nonEmptySegments id).getD 6 "") "galleries" = true
    on_goal 2 =>
      iterate 4 right
      left
      exact Bool.eq_false_iff.mpr c7
    by_cases c8 : goEqualFold ((nonEmptySegments id).getD 10 "") "versions" = true
    on_goal 2 =>
      iterate 10 right
      left
      exact Bool.eq_false_iff.mpr c8
    exact absurd ⟨c1, c2, c3, c4, c5, c6, c7, c8⟩ hnacc

/-- C1: every input string that conforms to the resource-ID grammar — a
leading slash, at least 12 non-empty segments, the literal keywords
subscriptions, resourceGroups, providers, Microsoft.Compute, galleries and
versions at their fixed positions case-insensitively, and non-empty
subscription, resource-group and version values — is parsed by
`ParseImageID` with no error, and the result is exactly the list of the
input's non-empty segments, in input order. -/
theorem ParseImageID_ok_on_grammar (id : String)
    (hslash : goStartsWithChar id '/' = true)
    (hlen : 12 ≤ (nonEmptySegments id).length)
    (hsub : goEqualFold ((nonEmptySegments id).getD 0 "") "subscriptions" = true)
    (hsubval : (nonEmptySegments id).getD 1 "" ≠ "")
    (hrg : goEqualFold ((nonEmptySegments id).getD 2 "") "resourceGroups" = true)
    (hrgval : (nonEmptySegments id).getD 3 "" ≠ "")
    (hprov : goEqualFold ((nonEmptySegments id).getD 4 "") "providers" = true)
    (hmc : goEqualFold ((nonEmptySegments id).getD 5 "") "Microsoft.Compute" = true)
    (hgal : goEqualFold ((nonEmptySegments id).getD 6 "") "galleries" = true)
    (hver : goEqualFold ((nonEmptySegments id).getD 10 "") "versions" = true)
    (hverval : (nonEmptySegments id).getD 11 "" ≠ "") :
    ParseImageID id = Except.ok (nonEmptySegments id) := by
  rcases ParseImageID_cases id with ⟨hok, -⟩ | ⟨-, hnacc⟩
  · exact hok
  · exact absurd ⟨hslash, hlen, hsub, hrg, hprov, hmc, hgal, hver⟩ hnacc

/-- C1 witness: a standard well-formed gallery image ID is accepted and the
parse result is its segment list. -/
theorem ParseImageID_ok_on_grammar_witness :
    ParseImageID
      "/subscriptions/sub1/resourceGroups/rg1/providers/Microsoft.Compute/galleries/gal1/images/img1/versions/v1" =
    Except.ok
      ["subscriptions", "sub1", "resourceGroups", "rg1", "providers", "Microsoft.Compute",
       "galleries", "gal1", "images", "img1", "versions", "v1"] := by
  have h := ParseImageID_ok_on_grammar
    "/subscriptions/sub1/resourceGroups/rg1/providers/Microsoft.Compute/galleries/gal1/images/img1/versions/v1"
    (by decide) (by decide) (by decide) (by decide) (by decide) (by decide) (by decide)
    (by decide) (by decide) (by decide) (by decide)
  rw [h]
  decide

/-- C2: `ParseImageID` returns an error exactly when one of the §4.1
conditions holds; in particular the empty string fails with an error
containing "cannot be empty" and "no-leading-slash" fails with an error
containing "must start with a slash". -/
theorem ParseImageID_error_iff_conditions :
    (∀ id, (∃ e, ParseImageID id = Except.error e) ↔ specErrorConditions id) ∧
    (∃ e, ParseImageID "" = Except.error e ∧ goContains e "cannot be empty") ∧
    (∃ e, ParseImageID "no-leading-slash" = Except.error e ∧
      goContains e "must start with '/'") := by
  refine ⟨?_, ?_, ?_⟩
  · intro id
    constructor
    · rintro ⟨e, he⟩
      rcases ParseImageID_cases id with ⟨hok, -⟩ | ⟨-, hnacc⟩
      · rw [hok] at he
        exact Except.noConfusion he
      · exact (specErrorConditions_iff_not_accept id).mpr hnacc
    · intro hcond
      rcases ParseImageID_cases id with ⟨-, hacc⟩ | ⟨herr, -⟩
      · exact absurd hacc ((specErrorConditions_iff_not_accept id).mp hcond)
      · exact herr
  · exact ⟨"invalid resource ID: id cannot be empty", by decide,
      "invalid resource ID: id ", "", by decide⟩
  · exact ⟨"invalid resource ID: resource id 'no-leading-slash' must start with '/'", by decide,
      "invalid resource ID: resource id 'no-leading-slash' ", "", by decide⟩

/-- C3 counterexample: an input that deviates from the fixed grammar shape —
its segment 8 is "foo", not "images", and it has 13 non-empty segments — is
nevertheless accepted by `ParseImageID`, so `ParseImageID` does not accept
only strings of the exact documented shape. -/
theorem ParseImageID_accepts_nonGrammar_input :
    ParseImageID
      "/subscriptions/s/resourceGroups/r/providers/Microsoft.Compute/galleries/g/foo/i/versions/v/extra" =
    Except.ok
      ["subscriptions", "s", "resourceGroups", "r", "providers", "Microsoft.Compute",
       "galleries", "g", "foo", "i", "versions", "v", "extra"] ∧
    goEqualFold
      ((nonEmptySegments
        "/subscriptions/s/resourceGroups/r/providers/Microsoft.Compute/galleries/g/foo/i/versions/v/extra").getD 8 "")
      "images" = false ∧
    12 <
      (nonEmptySegments
        "/subscriptions/s/resourceGroups/r/providers/Microsoft.Compute/galleries/g/foo/i/versions/v/extra").length := by
  refine ⟨by decide, by decide, by decide⟩

/-- C3 amended: `ParseImageID` accepts exactly the strings satisfying the
conditions it checks — leading slash, at least 12 non-empty segments, and
the keywords at positions 0, 2, 4, 5, 6 and 10 case-insensitively; segment
8 is not required to equal "images" and more than 12 segments are allowed
(no condition on them appears in `acceptShape`). -/
theorem ParseImageID_checked_shape_iff (id : String) :
    (∃ parts, ParseImageID id = Except.ok parts) ↔ acceptShape id := by
  constructor
  · rintro ⟨parts, hok⟩
    rcases ParseImageID_cases id with ⟨-, hacc⟩ | ⟨⟨e, herr⟩, -⟩
    · exact hacc
    · rw [herr] at hok
      exact Except.noConfusion hok
  · intro hacc
    rcases ParseImageID_cases id with ⟨hok, -⟩ | ⟨-, hnacc⟩
    · exact ⟨_, hok⟩
    · exact absurd hacc hnacc

theorem galleryParts_of_ok (imgId : String) (parts : List String)
    (h : ParseImageID imgId = Except.ok parts) : galleryParts imgId = parts := by
  unfold galleryParts
  rw [h]

theorem galleryParts_of_error (imgId : String) (e : String)
    (h : ParseImageID imgId = Except.error e) : galleryParts imgId = [] := by
  unfold galleryParts
  rw [h]

theorem orElseOpt_none (o : Option String) : orElseOpt o none = o := by
  cases o <;> rfl

theorem orElseStr_empty (o : Option String) : orElseStr o "" = o.getD "" := by
  cases o <;> rfl

theorem updatePair_SubscriptionID (x y : String) (img : AzureComputeGalleryImage) :
    (updatePair x y img).SubscriptionID =
      if goEqualFold x "subscriptions" then some y else img.SubscriptionID := by
  unfold updatePair
  by_cases h1 : goEqualFold x "subscriptions" = true <;>
    by_cases h2 : goEqualFold x "resourcegroups" = true <;>
    by_cases h3 : goEqualFold x "galleries" = true <;>
    by_cases h4 : goEqualFold x "images" = true <;>
    by_cases h5 : goEqualFold x "versions" = true <;>
    simp [h1, h2, h3, h4, h5]

theorem updatePair_ResourceGroup (x y : String) (img : AzureComputeGalleryImage) :
    (updatePair x y img).ResourceGroup =
      if goEqualFold x "resourcegroups" then some y else img.ResourceGroup := by
  unfold updatePair
  by_cases h1 : goEqualFold x "subscriptions" = true <;>
    by_cases h2 : goEqualFold x "resourcegroups" = true <;>
    by_cases h3 : goEqualFold x "galleries" = true <;>
    by_cases h4 : goEqualFold x "images" = true <;>
    by_cases h5 : goEqualFold x "versions" = true <;>
    simp [h1, h2, h3, h4, h5]

theorem updatePair_Gallery (x y : String) (img : AzureComputeGalleryImage) :
    (updatePair x y img).Gallery =
      if goEqualFold x "galleries" then y else img.Gallery := by
  unfold updatePair
  by_cases h1 : goEqualFold x "subscriptions" = true <;>
    by_cases h2 : goEqualFold x "resourcegroups" = true <;>
    by_cases h3 : goEqualFold x "galleries" = true <;>
    by_cases h4 : goEqualFold x "images" = true <;>
    by_cases h5 : goEqualFold x "versions" = true <;>
    simp [h1, h2, h3, h4, h5]

theorem updatePair_Name (x y : String) (img : AzureComputeGalleryImage) :
    (updatePair x y img).Name =
      if goEqualFold x "images" then y else img.Name := by
  unfold updatePair
  by_cases h1 : goEqualFold x "subscriptions" = true <;>
    by_cases h2 : goEqualFold x "resourcegroups" = true <;>
    by_cases h3 : goEqualFold x "galleries" = true <;>
    by_cases h4 : goEqualFold x "images" = true <;>
    by_cases h5 : goEqualFold x "versions" = true <;>
    simp [h1, h2, h3, h4, h5]

theorem updatePair_Version (x y : String) (img : AzureComputeGalleryImage) :
    (updatePair x y img).Version =
      if goEqualFold x "versions" then y else img.Version := by
  unfold updatePair
  by_cases h1 : goEqualFold x "subscriptions" = true <;>
    by_cases h2 : goEqualFold x "resourcegroups" = true <;>
    by_cases h3 : goEqualFold x "galleries" = true <;>
    by_cases h4 : goEqualFold x "images" = true <;>
    by_cases h5 : goEqualFold x "versions" = true <;>
    simp [h1, h2, h3, h4, h5]

theorem lastFollow_cons_cons (kw x y : String) (t : List String) :
    lastFollow kw (x :: y :: t) =
      match lastFollow kw (y :: t) with
      | some v => some v
      | none => if goEqualFold x kw then some y else none := by
  rfl

theorem orElseOpt_step (kw x y : String) (t : List String) (old upd : Option String)
    (hupd : upd = if goEqualFold x kw then some y else old) :
    orElseOpt (lastFollow kw (y :: t)) upd =
      orElseOpt (lastFollow kw (x :: y :: t)) old := by
  rw [lastFollow_cons_cons]
  cases hl : lastFollow kw (y :: t) with
  | some v => rfl
  | none =>
    cases hfold : goEqualFold x kw <;> simp [orElseOpt, hfold, hupd]

theorem orElseStr_step (kw x y : String) (t : List String) (old : String) (upd : String)
    (hupd : upd = if goEqualFold x kw then y else old) :
    orElseStr (lastFollow kw (y :: t)) upd =
      orElseStr (lastFollow kw (x :: y :: t)) old := by
  rw [lastFollow_cons_cons]
  cases hl : lastFollow kw (y :: t) with
  | some v => rfl
  | none =>
    cases hfold : goEqualFold x kw <;> simp [orElseStr, hfold, hupd]

/-- What the scanning loop computes on a segment list whose last element is
not a keyword: each field receives the segment following the last
occurrence of its keyword, or keeps its initial value when the keyword
never occurs with a follower. -/
theorem scanParts_spec (l : List String) :
    ∀ img : AzureComputeGalleryImage,
      (∀ z, l.getLast? = some z → isScanKeyword z = false) →
      scanParts l img =
        some
          { SubscriptionID := orElseOpt (lastFollow "subscriptions" l) img.SubscriptionID,
            ResourceGroup := orElseOpt (lastFollow "resourcegroups" l) img.ResourceGroup,
            Gallery := orElseStr (lastFollow "galleries" l) img.Gallery,
            Name := orElseStr (lastFollow "images" l) img.Name,
            Version := orElseStr (lastFollow "versions" l) img.Version } := by
  induction l with
  | nil =>
    intro img h
    simp [scanParts, lastFollow, orElseOpt, orElseStr]
  | cons x t ih =>
    intro img h
    cases t with
    | nil =>
      have hx : isScanKeyword x = false := h x (by simp)
      simp [scanParts, hx, lastFollow, orElseOpt, orElseStr]
    | cons y t2 =>
      have h2 : ∀ z, (y :: t2).getLast? = some z → isScanKeyword z = false := by
        intro z hz
        apply h
        rw [List.getLast?_cons_cons]
        exact hz
      rw [show scanParts (x :: y :: t2) img = scanParts (y :: t2) (updatePair x y img) from rfl]
      rw [ih (updatePair x y img) h2]
      refine congrArg some ?_
      simp only [AzureComputeGalleryImage.mk.injEq]
      refine ⟨?_, ?_, ?_, ?_, ?_⟩
      · exact orElseOpt_step _ x y t2 _ _ (updatePair_SubscriptionID x y img)
      · exact orElseOpt_step _ x y t2 _ _ (updatePair_ResourceGroup x y img)
      · exact orElseStr_step _ x y t2 _ _ (updatePair_Gallery x y img)
      · exact orElseStr_step _ x y t2 _ _ (updatePair_Name x y img)
      · exact orElseStr_step _ x y t2 _ _ (updatePair_Version x y img)

/-- C4: when the image reference's ID field is empty, `SDKImageToImage`
returns an image whose marketplace variant carries exactly the input's
publisher, offer, SKU and version values and whose third-party flag equals
the is-third-party argument. -/
theorem SDKImageToImage_marketplace (ref : ImageReference) (tp : Bool)
    (h : toStr ref.ID = "") :
    ∃ img, SDKImageToImage ref tp = some img ∧
      img.Marketplace =
        some
          { ImagePlan :=
              { Publisher := toStr ref.Publisher,
                Offer := toStr ref.Offer,
                SKU := toStr ref.Sku },
            Version := toStr ref.Version,
            ThirdPartyImage := tp } := by
  refine ⟨{ ID := some "",
            SharedGallery := some ⟨⟩,
            Marketplace := some
              { ImagePlan :=
                  { Publisher := toStr ref.Publisher,
                    Offer := toStr ref.Offer,
                    SKU := toStr ref.Sku },
                Version := toStr ref.Version,
                ThirdPartyImage := tp },
            ComputeGallery := some zeroComputeGallery }, ?_, rfl⟩
  simp [SDKImageToImage, h]

/-- C4 witness: publisher "p", offer "o", SKU "s", version "v", third-party
true, and an absent ID give exactly that marketplace variant. -/
theorem SDKImageToImage_marketplace_witness :
    ∃ img, SDKImageToImage ⟨none, some "p", some "o", some "s", some "v"⟩ true = some img ∧
      img.Marketplace = some ⟨⟨"p", "o", "s"⟩, "v", true⟩ := by
  obtain ⟨img, h1, h2⟩ :=
    SDKImageToImage_marketplace ⟨none, some "p", some "o", some "s", some "v"⟩ true rfl
  exact ⟨img, h1, h2⟩

/-- C5 counterexample: an image ID accepted by `ParseImageID` whose final
segment "Versions" case-insensitively equals the keyword "versions" makes
the scanning loop of `SDKImageToImage` index past the end of the segment
list, so no image is returned at all (the Go code panics), falsifying the
claim for this well-formed ID. -/
theorem SDKImageToImage_accepted_id_without_result :
    (∃ parts, ParseImageID
      "/subscriptions/s/resourceGroups/r/providers/Microsoft.Compute/galleries/g/images/i/versions/Versions" =
      Except.ok parts) ∧
    SDKImageToImage
      ⟨some "/subscriptions/s/resourceGroups/r/providers/Microsoft.Compute/galleries/g/images/i/versions/Versions",
       none, none, none, none⟩ false = none := by
  constructor
  · exact ⟨["subscriptions", "s", "resourceGroups", "r", "providers", "Microsoft.Compute",
      "galleries", "g", "images", "i", "versions", "Versions"], by decide⟩
  · decide

/-- C5 amended: for an image reference whose ID is accepted by
`ParseImageID` and whose final segment is not itself one of the five
keywords (otherwise the scanning loop panics), `SDKImageToImage` returns an
image whose compute-gallery fields are the segments immediately following
the (last occurrence of the) keywords subscriptions, resourcegroups,
galleries, images and versions, matched case-insensitively. -/
theorem SDKImageToImage_gallery_fields (ref : ImageReference) (tp : Bool)
    (parts : List String)
    (hok : ParseImageID (toStr ref.ID) = Except.ok parts)
    (hlast : ∀ z, parts.getLast? = some z → isScanKeyword z = false) :
    ∃ img, SDKImageToImage ref tp = some img ∧
      img.ComputeGallery =
        some
          { SubscriptionID := lastFollow "subscriptions" parts,
            ResourceGroup := lastFollow "resourcegroups" parts,
            Gallery := (lastFollow "galleries" parts).getD "",
            Name := (lastFollow "images" parts).getD "",
            Version := (lastFollow "versions" parts).getD "" } := by
  have hne : ¬ toStr ref.ID = "" := by
    intro h
    rw [h, show ParseImageID "" = Except.error "invalid resource ID: id cannot be empty"
      from by decide] at hok
    exact Except.noConfusion hok
  have hparts : galleryParts (toStr ref.ID) = parts := galleryParts_of_ok _ _ hok
  have hscan := scanParts_spec parts zeroComputeGallery hlast
  refine ⟨{ ID := some (toStr ref.ID),
            SharedGallery := some ⟨⟩,
            Marketplace := some zeroMarketplace,
            ComputeGallery := some
              { SubscriptionID := lastFollow "subscriptions" parts,
                ResourceGroup := lastFollow "resourcegroups" parts,
                Gallery := (lastFollow "galleries" parts).getD "",
                Name := (lastFollow "images" parts).getD "",
                Version := (lastFollow "versions" parts).getD "" } }, ?_, rfl⟩
  simp only [SDKImageToImage, hne, if_false, ite_false, hparts, hscan]
  simp [zeroComputeGallery, orElseOpt_none, orElseStr_empty]

/-- C5 witness: a standard well-formed gallery image ID yields the
compute-gallery variant with the five values from the ID's path. -/
theorem SDKImageToImage_gallery_fields_witness :
    ∃ img, SDKImageToImage
      ⟨some "/subscriptions/sub1/resourceGroups/rg1/providers/Microsoft.Compute/galleries/gal1/images/img1/versions/v1",
       none, none, none, none⟩ false = some img ∧
      img.ComputeGallery = some ⟨some "sub1", some "rg1", "gal1", "img1", "v1"⟩ := by
  obtain ⟨img, h1, h2⟩ :=
    SDKImageToImage_gallery_fields
      ⟨some "/subscriptions/sub1/resourceGroups/rg1/providers/Microsoft.Compute/galleries/gal1/images/img1/versions/v1",
       none, none, none, none⟩ false
      ["subscriptions", "sub1", "resourceGroups", "rg1", "providers", "Microsoft.Compute",
       "galleries", "gal1", "images", "img1", "versions", "v1"]
      (by decide) (by decide)
  refine ⟨img, h1, ?_⟩
  rw [h2]
  decide

/-- C6: when the image reference's ID is non-empty but rejected by
`ParseImageID`, `SDKImageToImage` still returns an image (no error, no
panic): its compute-gallery variant is the zero value and its ID field
carries the input ID string. -/
theorem SDKImageToImage_parse_failure_nonfatal (ref : ImageReference) (tp : Bool)
    (hne : toStr ref.ID ≠ "")
    (herr : ∃ e, ParseImageID (toStr ref.ID) = Except.error e) :
    SDKImageToImage ref tp =
      some
        { ID := some (toStr ref.ID),
          SharedGallery := some ⟨⟩,
          Marketplace := some zeroMarketplace,
          ComputeGallery := some zeroComputeGallery } := by
  obtain ⟨e, he⟩ := herr
  have hparts : galleryParts (toStr ref.ID) = [] := galleryParts_of_error _ _ he
  simp only [SDKImageToImage, hne, if_false, ite_false, hparts]
  rfl

/-- C6 witness: the malformed ID "x" is rejected by the parser, yet the
conversion returns an image with the zero compute-gallery variant and the
ID "x". -/
theorem SDKImageToImage_parse_failure_nonfatal_witness :
    SDKImageToImage ⟨some "x", none, none, none, none⟩ false =
      some
        { ID := some "x",
          SharedGallery := some ⟨⟩,
          Marketplace := some zeroMarketplace,
          ComputeGallery := some zeroComputeGallery } := by
  exact SDKImageToImage_parse_failure_nonfatal ⟨some "x", none, none, none, none⟩ false
    (by decide)
    ⟨"invalid resource ID: resource id 'x' must start with '/'", by decide⟩

/-- C7: every image that `SDKImageToImage` returns has all three variant
sub-fields present (non-nil pointers), the shared-gallery one always the
empty zero-valued structure, and its ID field equal to the input
reference's ID string. -/
theorem SDKImageToImage_all_variants_present (ref : ImageReference) (tp : Bool)
    (img : Image) (h : SDKImageToImage ref tp = some img) :
    img.ID = some (toStr ref.ID) ∧
    img.SharedGallery = some ⟨⟩ ∧
    img.Marketplace.isSome = true ∧
    img.ComputeGallery.isSome = true := by
  by_cases hid : toStr ref.ID = ""
  · simp only [SDKImageToImage, hid, if_true, ite_true, Option.some.injEq] at h
    subst h
    exact ⟨by rw [hid], rfl, rfl, rfl⟩
  · rcases hscan : scanParts (galleryParts (toStr ref.ID)) zeroComputeGallery with - | cimg
    · simp only [SDKImageToImage, hid, if_false, ite_false, hscan] at h
      exact Option.noConfusion h
    · simp only [SDKImageToImage, hid, if_false, ite_false, hscan, Option.some.injEq] at h
      subst h
      exact ⟨rfl, rfl, rfl, rfl⟩

/-- C7 witness: at a concrete input all three variant pointers are present,
the shared-gallery variant is empty and the ID round-trips. -/
theorem SDKImageToImage_all_variants_present_witness :
    (⟨some "x", some ⟨⟩, some zeroMarketplace, some zeroComputeGallery⟩ : Image).ID =
      some (toStr (⟨some "x", none, none, none, none⟩ : ImageReference).ID) ∧
    (⟨some "x", some ⟨⟩, some zeroMarketplace, some zeroComputeGallery⟩ : Image).SharedGallery = some ⟨⟩ ∧
    (⟨some "x", some ⟨⟩, some zeroMarketplace, some zeroComputeGallery⟩ : Image).Marketplace.isSome = true ∧
    (⟨some "x", some ⟨⟩, some zeroMarketplace, some zeroComputeGallery⟩ : Image).ComputeGallery.isSome = true := by
  exact SDKImageToImage_all_variants_present ⟨some "x", none, none, none, none⟩ false _ (by decide)

/-- C10: the keyword-scanning loop of `SDKImageToImage` does index past the
end of the segment list for an accepted ID: the ID below is accepted by
`ParseImageID`, its final segment "IMAGES" case-insensitively matches the
keyword "images", and the conversion reaches the out-of-range access
`parts [i + 1]` (the `none` result models the Go panic). -/
theorem SDKImageToImage_scan_out_of_range_eval :
    ParseImageID
      "/subscriptions/s/resourceGroups/r/providers/Microsoft.Compute/galleries/g/images/i/versions/IMAGES" =
      Except.ok
        ["subscriptions", "s", "resourceGroups", "r", "providers", "Microsoft.Compute",
         "galleries", "g", "images", "i", "versions", "IMAGES"] ∧
    isScanKeyword "IMAGES" = true ∧
    SDKImageToImage
      ⟨some "/subscriptions/s/resourceGroups/r/providers/Microsoft.Compute/galleries/g/images/i/versions/IMAGES",
       none, none, none, none⟩ false = none := by
  refine ⟨by decide, by decide, by decide⟩

/-- C8 counterexample: an instance whose whole properties block is absent —
so in particular its provisioning-state field is absent — is converted to a
record whose state is the zero value "", not the "Creating" sentinel. -/
theorem SDKToVMSSVM_nil_properties_state :
    (SDKToVMSSVM ⟨some "id1", some "0", none, false, none⟩).map VMSSVM.State = some "" ∧
    ("" : String) ≠ "Creating" := by
  exact ⟨by decide, by decide⟩

/-- C8 amended: when the properties block is present, the converted state
defaults to the "Creating" sentinel if the provisioning-state field is
absent and equals that field's value when present; when the whole
properties block is absent, the state is left at the zero value "". -/
theorem SDKToVMSSVM_state_spec (vm : VirtualMachineScaleSetVM) (inst : VMSSVM)
    (h : SDKToVMSSVM vm = some inst) :
    (vm.Properties = none → inst.State = "") ∧
    (∀ props, vm.Properties = some props →
      (props.ProvisioningState = none → inst.State = "Creating") ∧
      (∀ s, props.ProvisioningState = some s → inst.State = s)) := by
  cases hp : vm.Properties with
  | none =>
    simp only [SDKToVMSSVM, hp, Option.some.injEq] at h
    refine ⟨fun _ => ?_, fun props hps => ?_⟩
    · rw [← h]
    · exact Option.noConfusion hps
  | some props =>
    have hstate : inst.State =
        (match props.ProvisioningState with
         | some s => s
         | none => "Creating") := by
      cases hsp : props.StorageProfile with
      | none =>
        simp only [SDKToVMSSVM, hp, hsp, Option.some.injEq] at h
        rw [← h]
      | some sp =>
        cases hir : sp.ImageReference with
        | none =>
          simp only [SDKToVMSSVM, hp, hsp, hir, Option.some.injEq] at h
          rw [← h]
        | some ir =>
          cases him : SDKImageToImage ir vm.PlanPresent with
          | none =>
            simp only [SDKToVMSSVM, hp, hsp, hir, him] at h
            exact Option.noConfusion h
          | some im =>
            simp only [SDKToVMSSVM, hp, hsp, hir, him, Option.some.injEq] at h
            rw [← h]
    refine ⟨fun hnone => ?_, fun props2 hps => ?_⟩
    · exact Option.noConfusion hnone
    · have hpe : props = props2 := Option.some.inj hps
      subst hpe
      refine ⟨fun hnone2 => ?_, fun s hs => ?_⟩
      · rw [hstate, hnone2]
      · rw [hstate, hs]

/-- C8 witness: with a present properties block whose provisioning state is
absent, the converted instance's state is the "Creating" sentinel. -/
theorem SDKToVMSSVM_state_spec_witness :
    SDKToVMSSVM ⟨some "i", some "0", some ⟨none, none, none⟩, false, none⟩ =
      some { ID := "i", InstanceID := "0", Name := "", AvailabilityZone := "",
             State := "Creating", Image := zeroImage } ∧
    ({ ID := "i", InstanceID := "0", Name := "", AvailabilityZone := "",
       State := "Creating", Image := zeroImage } : VMSSVM).State = "Creating" := by
  refine ⟨by decide, ?_⟩
  exact ((SDKToVMSSVM_state_spec ⟨some "i", some "0", some ⟨none, none, none⟩, false, none⟩
    { ID := "i", InstanceID := "0", Name := "", AvailabilityZone := "",
      State := "Creating", Image := zeroImage } (by decide)).2
    ⟨none, none, none⟩ rfl).1 rfl

/-- C9: if the single address-prefix field is set the extractor returns the
one-element list containing it; otherwise if the list-valued field is set
it returns that list's elements in order; otherwise it returns the empty
list. -/
theorem GetSubnetAddresses_spec (sn : Subnet) :
    (∀ p, subnetSingleAddress sn = some p → GetSubnetAddresses sn = [p]) ∧
    (subnetSingleAddress sn = none →
      ∀ ps, subnetAddressList sn = some ps → GetSubnetAddresses sn = ps) ∧
    (subnetSingleAddress sn = none → subnetAddressList sn = none →
      GetSubnetAddresses sn = []) := by
  obtain ⟨op⟩ := sn
  cases op with
  | none =>
    refine ⟨fun p hp => ?_, fun _ ps hps => ?_, fun _ _ => rfl⟩
    · exact Option.noConfusion hp
    · exact Option.noConfusion hps
  | some props =>
    obtain ⟨pre, pres⟩ := props
    cases pre with
    | some p =>
      refine ⟨fun q hq => ?_, fun hn => ?_, fun hn _ => ?_⟩
      · have he : p = q := Option.some.inj hq
        rw [← he]
        rfl
      · exact Option.noConfusion hn
      · exact Option.noConfusion hn
    | none =>
      cases pres with
      | some ps =>
        refine ⟨fun q hq => ?_, fun _ qs hqs => ?_, fun _ hn => ?_⟩
        · exact Option.noConfusion hq
        · have he : ps = qs := Option.some.inj hqs
          rw [← he]
          rfl
        · exact Option.noConfusion hn
      | none =>
        refine ⟨fun q hq => ?_, fun _ qs hqs => ?_, fun _ _ => rfl⟩
        · exact Option.noConfusion hq
        · exact Option.noConfusion hqs

/-- C9 witness: a subnet with only the single prefix set yields exactly
that one-element list. -/
theorem GetSubnetAddresses_spec_witness :
    GetSubnetAddresses ⟨some ⟨some "10.0.0.0/24", none⟩⟩ = ["10.0.0.0/24"] := by
  exact (GetSubnetAddresses_spec ⟨some ⟨some "10.0.0.0/24", none⟩⟩).1 "10.0.0.0/24" rfl
